import Mathlib

/-!
Shallow embedding of the puzzle gameplay core of the Dotz.fit client
(`src/client/src/components/PuzzleCreator.tsx`, `GameBoard` component).

The embedded functions are `checkWinConditions`, `updateGameState`,
`handleDominoMove` and `handlePuzzleComplete`, together with the data
shapes they operate on (`BoardData`, `DominoData`, `GameState`,
`boardState` as a cell-id-keyed map). JavaScript objects used as string
maps are embedded as association lists (`boardData.regions`,
`boardData.conditions`) or as functions `String → Option _`
(`gameState.boardState`, where the spread `\x7b...m, [k]: v\x7d` is a
pointwise override). Timestamps (`Date.now()`) are passed explicitly as
integer parameters. React `setState` is embedded as a pure state
transformer; the asynchronous persistence calls are external effects and
are not part of the board-state semantics.
-/

/-- Orientation of a domino: the source's `rotation: 'horizontal' | 'vertical'`. -/
inductive Rotation where
  | horizontal : Rotation
  | vertical : Rotation
deriving DecidableEq, Repr

/-- An entry of `gameState.boardState`: `\x7b dominoId: string; value: number \x7d`. -/
structure CellState where
  dominoId : String
  value : Int
deriving DecidableEq, Repr

/-- A region condition: `\x7b type: string; value: number | string \x7d`.
The numeric branch of the union is embedded (`condition.value` is compared
with `===` against numbers in `checkWinConditions`); the tag stays a
string, as in the source, so unknown tags are representable. -/
structure Condition where
  ctype : String
  value : Int
deriving DecidableEq, Repr

/-- A region: `\x7b color: string; cells: string[] \x7d`. -/
structure Region where
  color : String
  cells : List String
deriving DecidableEq, Repr

/-- `BoardData`: `regions` and `conditions` keyed by region id. -/
structure BoardData where
  regions : List (String × Region)
  conditions : List (String × Condition)
deriving DecidableEq, Repr

/-- `DominoData` as in the source interface. -/
structure DominoData where
  id : String
  values : Int × Int
  position : Option (Int × Int)
  rotation : Rotation
  isPlaced : Bool
deriving DecidableEq, Repr

/-- `GameState` as in the source interface; `boardState` is the cell map. -/
structure GameState where
  dominoes : List DominoData
  boardState : String → Option CellState
  isComplete : Bool
  violatedConditions : List String
  startTime : Int
  completionTime : Option Int

/-- The values collected from a region's covered cells, in `region.cells`
order: the `region.cells.forEach` / `regionValues.push` loop of
`checkWinConditions`. -/
def regionValues (s : GameState) (region : Region) : List Int :=
  region.cells.filterMap (fun cellId => (s.boardState cellId).map (fun c => c.value))

/-- The `switch (condition.type)` block of `checkWinConditions` computing
`conditionMet`, as a standalone total evaluator. `conditionMet` starts
`false`, so a tag outside the six cases yields `false`. -/
def evaluateCondition (ctype : String) (target : Int) (values : List Int) : Bool :=
  if ctype = "sum" then values.foldl (· + ·) 0 == target
  else if ctype = "product" then values.foldl (· * ·) 1 == target
  else if ctype = "difference" then
    match values with
    | [a, b] => ((a - b).natAbs : Int) == target
    | _ => false
  else if ctype = "equality" then
    match values with
    | [] => true
    | v0 :: _ => values.all (fun v => v == v0)
  else if ctype = "greater_than" then values.all (fun v => target < v)
  else if ctype = "less_than" then values.all (fun v => v < target)
  else false

/-- One iteration of the `Object.entries(boardData.conditions).forEach`
loop of `checkWinConditions`: early-returns on a missing region or an
empty covered-value list, otherwise appends the region id when the
condition is not met. -/
def checkWinStep (bd : BoardData) (s : GameState) (violated : List String)
    (e : String × Condition) : List String :=
  match List.lookup e.1 bd.regions with
  | none => violated
  | some region =>
    let vals := regionValues s region
    if vals.length = 0 then violated
    else if evaluateCondition e.2.ctype e.2.value vals then violated
    else violated ++ [e.1]

/-- `checkWinConditions(state)`: the list of violated region ids, in
condition-entry order. -/
def checkWinConditions (bd : BoardData) (s : GameState) : List String :=
  bd.conditions.foldl (checkWinStep bd s) []

/-- The partial-state argument of `updateGameState` (only the fields its
callers actually pass: `dominoes` and `boardState`). `none` means the
field is absent from the partial update and the previous value is kept. -/
structure GameStateUpdate where
  dominoes : Option (List DominoData)
  boardState : Option (String → Option CellState)

/-- The spread `\x7b ...prevState, ...newState \x7d` merging a partial
update into the previous state. -/
def applyUpdate (prev : GameState) (u : GameStateUpdate) : GameState :=
  { prev with
    dominoes := u.dominoes.getD prev.dominoes,
    boardState := u.boardState.getD prev.boardState }

/-- `updateGameState`: merges the partial update, recomputes
`violatedConditions`, `allDominoesPlaced`, `isComplete` and
`completionTime`, and returns the final state together with the Boolean
`isComplete && !prevState.isComplete` that guards the completion handling
(`setShowSuccess` / `handlePuzzleComplete`). `now` is `Date.now()`. -/
def updateGameState (bd : BoardData) (prev : GameState) (u : GameStateUpdate)
    (now : Int) : GameState × Bool :=
  let updatedState := applyUpdate prev u
  let violatedConditions := checkWinConditions bd updatedState
  let allDominoesPlaced := updatedState.dominoes.all (fun d => d.isPlaced)
  let isComplete := allDominoesPlaced && violatedConditions.length == 0
  let finalState : GameState :=
    { updatedState with
      violatedConditions := violatedConditions,
      isComplete := isComplete,
      completionTime :=
        if isComplete && !prev.isComplete then some (now - prev.startTime)
        else prev.completionTime }
  (finalState, isComplete && !prev.isComplete)

/-- `handleDominoMove(dominoId, targetCellId)`: `targetCellId = some c`
places the domino with its first pip value on `c` and its second on the
key `c ++ "-right"` (horizontal) or `c ++ "-below"` (vertical);
`targetCellId = none` marks the domino unplaced and passes the board
state through unchanged. Unknown ids early-return without updating. -/
def handleDominoMove (bd : BoardData) (s : GameState) (dominoId : String)
    (targetCellId : Option String) (now : Int) : GameState × Bool :=
  match s.dominoes.find? (fun d => d.id = dominoId) with
  | none => (s, false)
  | some domino =>
    let newDominoes := s.dominoes.map (fun d =>
      if d.id = dominoId then
        match targetCellId with
        | some _ => { d with isPlaced := true, position := some (0, 0) }
        | none => { d with isPlaced := false, position := none }
      else d)
    let newBoardState : String → Option CellState :=
      match targetCellId with
      | some target =>
        let secondKey :=
          target ++ (if domino.rotation = Rotation.horizontal then "-right" else "-below")
        fun k =>
          if k = secondKey then some ⟨dominoId, domino.values.2⟩
          else if k = target then some ⟨dominoId, domino.values.1⟩
          else s.boardState k
      | none => s.boardState
    updateGameState bd s ⟨some newDominoes, some newBoardState⟩ now

/-- The achievement record built by `handlePuzzleComplete` for
`trpc.createAchievement.mutate`. -/
structure Achievement where
  difficulty_level : String
  completion_time : Int
  is_cookie_trifecta : Bool
deriving DecidableEq, Repr

/-- The pure core of `handlePuzzleComplete`: `completionSeconds =
Math.floor(completionTime / 1000)` and `isCookieTrifecta =
completionSeconds <= 60`. `completionTime` is in milliseconds. -/
def handlePuzzleComplete (difficultyLevel : String) (completionTime : Int) :
    Achievement :=
  let completionSeconds := Int.fdiv completionTime 1000
  let isCookieTrifecta := completionSeconds ≤ 60
  ⟨difficultyLevel, completionSeconds, isCookieTrifecta⟩

/-- Modelled from the spec: the spec-side full-coverage predicate used by
the `complete` clause of C1 — "every cell of every region is covered".
This follows the spec's words (not the source, which has no such check)
so the claim can be compared against the code's completion computation. -/
def specAllRegionCellsCovered (bd : BoardData) (s : GameState) : Bool :=
  bd.regions.all (fun e => e.2.cells.all (fun c => (s.boardState c).isSome))

/-! ### Characterization of `checkWinConditions` -/

/-- The contribution of a single condition entry to the violated list:
empty when the region is missing, has no covered value, or meets its
condition; the singleton of the region id otherwise. -/
def entryViolations (bd : BoardData) (s : GameState) (e : String × Condition) :
    List String :=
  match List.lookup e.1 bd.regions with
  | none => []
  | some region =>
    if (regionValues s region).length = 0 then []
    else if evaluateCondition e.2.ctype e.2.value (regionValues s region) then []
    else [e.1]

theorem checkWinStep_eq_append (bd : BoardData) (s : GameState)
    (violated : List String) (e : String × Condition) :
    checkWinStep bd s violated e = violated ++ entryViolations bd s e := by
  unfold checkWinStep entryViolations
  cases List.lookup e.1 bd.regions with
  | none => simp
  | some region =>
    by_cases h1 : (regionValues s region).length = 0
    · simp [h1]
    · by_cases h2 : evaluateCondition e.2.ctype e.2.value (regionValues s region)
      · simp [h1, h2]
      · simp [h1, h2]

theorem checkWin_foldl_eq (bd : BoardData) (s : GameState)
    (l : List (String × Condition)) (acc : List String) :
    l.foldl (checkWinStep bd s) acc = acc ++ l.flatMap (entryViolations bd s) := by
  induction l generalizing acc with
  | nil => simp
  | cons e tl ih =>
    simp [List.foldl_cons, checkWinStep_eq_append, ih, List.flatMap_cons,
      List.append_assoc]

theorem mem_entryViolations (bd : BoardData) (s : GameState) (rid : String)
    (e : String × Condition) :
    rid ∈ entryViolations bd s e ↔
      e.1 = rid ∧ ∃ region, List.lookup e.1 bd.regions = some region ∧
        regionValues s region ≠ [] ∧
        evaluateCondition e.2.ctype e.2.value (regionValues s region) = false := by
  unfold entryViolations
  cases hl : List.lookup e.1 bd.regions with
  | none => simp
  | some region =>
    dsimp only
    by_cases h1 : (regionValues s region).length = 0
    · rw [if_pos h1]
      have hnil : regionValues s region = [] := List.length_eq_zero.mp h1
      simp [hnil]
    · by_cases h2 : evaluateCondition e.2.ctype e.2.value (regionValues s region)
      · rw [if_neg h1, if_pos h2]
        simp [h2]
      · have hne : regionValues s region ≠ [] := fun h => h1 (by simp [h])
        have hfalse : evaluateCondition e.2.ctype e.2.value (regionValues s region) = false := by
          simp only [Bool.not_eq_true] at h2; exact h2
        rw [if_neg h1, if_neg h2]
        simp only [List.mem_singleton, Option.some.injEq]
        constructor
        · intro h
          exact ⟨h.symm, region, rfl, hne, hfalse⟩
        · rintro ⟨hid, region2, hreq, -, -⟩
          exact hid.symm

/-- Membership in the violated list, spelled out: a region id is violated
iff it has a condition entry, its region exists, at least one of its cells
is covered, and the evaluator rejects the covered values. -/
theorem mem_checkWinConditions (bd : BoardData) (s : GameState) (rid : String) :
    rid ∈ checkWinConditions bd s ↔
      ∃ c region, (rid, c) ∈ bd.conditions ∧
        List.lookup rid bd.regions = some region ∧
        regionValues s region ≠ [] ∧
        evaluateCondition c.ctype c.value (regionValues s region) = false := by
  unfold checkWinConditions
  rw [checkWin_foldl_eq, List.nil_append, List.mem_flatMap]
  constructor
  · rintro ⟨e, he, hmem⟩
    rw [mem_entryViolations] at hmem
    obtain ⟨hid, region, hl, hne, hev⟩ := hmem
    refine ⟨e.2, region, ?_, ?_, hne, hev⟩
    · rw [← hid]; exact he
    · rw [← hid]; exact hl
  · rintro ⟨c, region, hc, hl, hne, hev⟩
    refine ⟨(rid, c), hc, ?_⟩
    rw [mem_entryViolations]
    exact ⟨rfl, region, hl, hne, hev⟩

/-- The completion flag computed by `updateGameState`, extracted. -/
theorem updateGameState_isComplete (bd : BoardData) (prev : GameState)
    (u : GameStateUpdate) (now : Int) :
    (updateGameState bd prev u now).1.isComplete =
      ((applyUpdate prev u).dominoes.all (fun d => d.isPlaced) &&
        (checkWinConditions bd (applyUpdate prev u)).length == 0) := rfl

/-- The empty violated list, spelled out: no region is violated iff every
condition entry whose region exists and has at least one covered value is
met by the evaluator. -/
theorem checkWinConditions_eq_nil_iff (bd : BoardData) (s : GameState) :
    checkWinConditions bd s = [] ↔
      ∀ rid c region, (rid, c) ∈ bd.conditions →
        List.lookup rid bd.regions = some region →
        regionValues s region ≠ [] →
        evaluateCondition c.ctype c.value (regionValues s region) = true := by
  rw [List.eq_nil_iff_forall_not_mem]
  constructor
  · intro h rid c region hc hl hne
    by_contra hev
    have hev2 : evaluateCondition c.ctype c.value (regionValues s region) = false := by
      simp only [Bool.not_eq_true] at hev
      exact hev
    exact h rid ((mem_checkWinConditions bd s rid).mpr ⟨c, region, hc, hl, hne, hev2⟩)
  · intro h rid hmem
    obtain ⟨c, region, hc, hl, hne, hev⟩ := (mem_checkWinConditions bd s rid).mp hmem
    rw [h rid c region hc hl hne] at hev
    exact absurd hev (by simp)

/-! ### Concrete fixtures (used by counterexamples and witnesses) -/

/-- A single unplaced 3–4 domino, as parsed from `dominoes_data`. -/
def dominoA : DominoData := ⟨"domino-0", (3, 4), none, Rotation.horizontal, false⟩

/-- The region used by the concrete boards: cells 0 and 1 of the grid. -/
def regionA : Region := ⟨"red", ["cell-0", "cell-1"]⟩

/-- Board with one region over cells 0 and 1 and the condition sum = 7. -/
def bdA : BoardData := ⟨[("r1", regionA)], [("r1", ⟨"sum", 7⟩)]⟩

/-- Initial game state: one unplaced domino, empty board. -/
def s0A : GameState := ⟨[dominoA], fun _ => none, false, [], 0, none⟩

/-- The state after dropping the only domino on `cell-5`, outside the
region. -/
def c1State : GameState := (handleDominoMove bdA s0A "domino-0" (some "cell-5") 100).1

/-- Board with one region over cells 0 and 1 and the condition sum = 5. -/
def bdB : BoardData := ⟨[("r1", regionA)], [("r1", ⟨"sum", 5⟩)]⟩

/-- A state whose board covers only `cell-0` (value 3); `cell-1` of the
region is uncovered. -/
def sB : GameState :=
  ⟨[], fun k => if k = "cell-0" then some ⟨"domino-0", 3⟩ else none, false, [], 0, none⟩

/-- A state with a fully uncovered board. -/
def sB0 : GameState := ⟨[], fun _ => none, false, [], 0, none⟩

/-- C1: the claim's completeness condition fails on the code: after
placing the puzzle's only domino outside the region, `isComplete` is
`true` although the region's cells are not all covered, so `complete`
is not equivalent to "all dominoes placed AND every region cell covered
AND no region violated". -/
theorem c1_complete_without_full_coverage :
    c1State.isComplete = true ∧ specAllRegionCellsCovered bdA c1State = false := by
  decide

/-- C1 (amended): `complete` is true iff every domino is placed AND no
region with a condition, an existing region entry, and at least one
covered cell fails its condition; full coverage of region cells is not
required. -/
theorem c1_complete_iff_all_placed_and_no_violation (bd : BoardData)
    (prev : GameState) (u : GameStateUpdate) (now : Int) :
    (updateGameState bd prev u now).1.isComplete = true ↔
      ((∀ d ∈ (applyUpdate prev u).dominoes, d.isPlaced = true) ∧
       ∀ rid c region, (rid, c) ∈ bd.conditions →
         List.lookup rid bd.regions = some region →
         regionValues (applyUpdate prev u) region ≠ [] →
         evaluateCondition c.ctype c.value
           (regionValues (applyUpdate prev u) region) = true) := by
  rw [updateGameState_isComplete, Bool.and_eq_true, List.all_eq_true]
  have h0 : ((checkWinConditions bd (applyUpdate prev u)).length == 0) = true ↔
      checkWinConditions bd (applyUpdate prev u) = [] := by
    simp [List.length_eq_zero]
  rw [h0, checkWinConditions_eq_nil_iff]

/-- C2: the claim fails on the code: region `r1` has its cell `cell-1`
uncovered, yet it is reported violated (the code judges a region on its
covered subset as soon as one value is present). -/
theorem c2_partially_covered_region_in_violated :
    "r1" ∈ checkWinConditions bdB sB ∧ sB.boardState "cell-1" = none := by
  decide

/-- C2 (amended): only a region with zero covered cells is excluded from
the violated list; a partially covered region is judged on its covered
values. -/
theorem c2_zero_covered_region_not_in_violated (bd : BoardData) (s : GameState)
    (rid : String) (region : Region)
    (hl : List.lookup rid bd.regions = some region)
    (hv : regionValues s region = []) :
    rid ∉ checkWinConditions bd s := by
  intro hmem
  obtain ⟨c, region2, hc, hl2, hne, -⟩ := (mem_checkWinConditions bd s rid).mp hmem
  rw [hl] at hl2
  injection hl2 with h
  subst h
  exact hne hv

theorem c2_zero_covered_region_not_in_violated_witness :
    List.lookup "r1" bdB.regions = some regionA ∧
    regionValues sB0 regionA = [] ∧
    "r1" ∉ checkWinConditions bdB sB0 :=
  ⟨by decide, by decide,
    c2_zero_covered_region_not_in_violated bdB sB0 "r1" regionA (by decide) (by decide)⟩

/-! ### Placement round-trip and placement-target behavior (C3, C4, C5) -/

/-- An empty board definition: no regions, no conditions. -/
def bdE : BoardData := ⟨[], []⟩

/-- The state after dropping the 3–4 domino horizontally on `cell-0`. -/
def sPlaced : GameState := (handleDominoMove bdE s0A "domino-0" (some "cell-0") 100).1

/-- The state after then dragging the domino off the board. -/
def sRemoved : GameState := (handleDominoMove bdE sPlaced "domino-0" none 200).1

/-- The state after placing the already-placed domino again on `cell-2`. -/
def sReplaced : GameState := (handleDominoMove bdE sPlaced "domino-0" (some "cell-2") 300).1

/-- C3: removal does not clear the two covered cells. Starting from an
empty board, place-then-remove marks the domino unplaced but leaves both
board-state entries behind, so the board state is not restored to its
pre-placement value. -/
theorem c3_remove_does_not_clear_cells :
    s0A.boardState "cell-0" = none ∧
    s0A.boardState "cell-0-right" = none ∧
    sPlaced.boardState "cell-0" = some ⟨"domino-0", 3⟩ ∧
    sPlaced.boardState "cell-0-right" = some ⟨"domino-0", 4⟩ ∧
    sRemoved.dominoes.all (fun d => !d.isPlaced) = true ∧
    sRemoved.boardState "cell-0" = some ⟨"domino-0", 3⟩ ∧
    sRemoved.boardState "cell-0-right" = some ⟨"domino-0", 4⟩ := by
  decide

/-- C4: on a horizontal placement at `cell-0` the second pip value is
stored under the key `"cell-0-right"`, which is not a grid cell id
(`GameBoard` renders cells `"cell-" ++ index`); the adjacent cell
`"cell-1"` stays uncovered. -/
theorem c4_second_pip_key_not_adjacent_cell :
    sPlaced.boardState "cell-0" = some ⟨"domino-0", 3⟩ ∧
    sPlaced.boardState "cell-0-right" = some ⟨"domino-0", 4⟩ ∧
    sPlaced.boardState "cell-1" = none := by
  decide

/-- C5: placing an already-placed domino again does not fail: there is no
error result of any kind, and the second placement mutates the board
(covering `cell-2` and `cell-2-right`) while the first placement's cells
stay covered. -/
theorem c5_second_place_succeeds_no_error :
    sPlaced.dominoes.all (fun d => d.isPlaced) = true ∧
    sPlaced.boardState "cell-2" = none ∧
    sReplaced.boardState "cell-2" = some ⟨"domino-0", 3⟩ ∧
    sReplaced.boardState "cell-2-right" = some ⟨"domino-0", 4⟩ ∧
    sReplaced.boardState "cell-0" = some ⟨"domino-0", 3⟩ ∧
    sReplaced.dominoes.all (fun d => d.isPlaced) = true := by
  decide

/-! ### The condition evaluator (C6, C8, C10) -/

/-- Computation rule: the `difference` branch of the switch. -/
theorem evaluateCondition_difference (t : Int) (vs : List Int) :
    evaluateCondition "difference" t vs =
      match vs with
      | [a, b] => (((a - b).natAbs : Int) == t)
      | _ => false := rfl

/-- Computation rule: the `equality` branch of the switch. -/
theorem evaluateCondition_equality (t : Int) (vs : List Int) :
    evaluateCondition "equality" t vs =
      match vs with
      | [] => true
      | v0 :: _ => vs.all (fun v => v == v0) := rfl

/-- C6: a `difference` condition holds exactly on two-element value lists
whose absolute difference is the target; it is false on the empty list
and on singletons. -/
theorem c6_difference_two_values_iff :
    ∀ (t : Int) (vs : List Int),
      (evaluateCondition "difference" t vs = true ↔
        ∃ a b, vs = [a, b] ∧ ((a - b).natAbs : Int) = t) ∧
      evaluateCondition "difference" t [] = false ∧
      ∀ a : Int, evaluateCondition "difference" t [a] = false := by
  intro t vs
  refine ⟨?_, rfl, fun a => rfl⟩
  rw [evaluateCondition_difference]
  match vs with
  | [] => simp
  | [a] => simp
  | [a, b] =>
    constructor
    · intro h
      exact ⟨a, b, rfl, beq_iff_eq.mp h⟩
    · rintro ⟨x, y, hxy, h⟩
      injection hxy with h1 htl
      injection htl with h2 hnil
      subst h1
      subst h2
      exact beq_iff_eq.mpr h
  | a :: b :: c :: tl => simp

/-- Computation rule: the trifecta flag is the decidable 60-second test
on the floored second count, ignoring the difficulty level. -/
theorem handlePuzzleComplete_trifecta (d : String) (ms : Int) :
    (handlePuzzleComplete d ms).is_cookie_trifecta =
      decide (Int.fdiv ms 1000 ≤ 60) := rfl

/-- C7: for a completion time of `s` whole seconds (`s * 1000` ms), the
Cookie Trifecta flag is awarded iff `s ≤ 60`, independently of the
difficulty tier; at exactly 60 seconds it is `true`, at 61 seconds
`false`. -/
theorem c7_cookie_trifecta_iff_at_most_60s :
    ∀ (d1 d2 : String) (s : Nat),
      ((handlePuzzleComplete d1 ((s : Int) * 1000)).is_cookie_trifecta = true ↔ s ≤ 60) ∧
      (handlePuzzleComplete d1 ((s : Int) * 1000)).is_cookie_trifecta
        = (handlePuzzleComplete d2 ((s : Int) * 1000)).is_cookie_trifecta ∧
      (handlePuzzleComplete d1 60000).is_cookie_trifecta = true ∧
      (handlePuzzleComplete d1 61000).is_cookie_trifecta = false := by
  intro d1 d2 s
  have hdiv : Int.fdiv ((s : Int) * 1000) 1000 = (s : Int) :=
    Int.mul_fdiv_cancel _ (by norm_num)
  refine ⟨?_, rfl, rfl, rfl⟩
  rw [handlePuzzleComplete_trifecta, hdiv, decide_eq_true_iff]
  omega

/-- C8: an `equality` condition holds exactly when all values in the list
are equal; vacuously true on the empty list and singletons, and on a pair
it is the equality test of the two values. -/
theorem c8_equality_all_equal_iff :
    ∀ (t : Int) (vs : List Int),
      (evaluateCondition "equality" t vs = true ↔ ∀ a ∈ vs, ∀ b ∈ vs, a = b) ∧
      evaluateCondition "equality" t [] = true ∧
      (∀ x : Int, evaluateCondition "equality" t [x] = true) ∧
      (∀ a b : Int, evaluateCondition "equality" t [a, b] = (a == b)) := by
  intro t vs
  refine ⟨?_, rfl, fun x => by rw [evaluateCondition_equality]; simp, fun a b => ?_⟩
  · rw [evaluateCondition_equality]
    match vs with
    | [] => simp
    | v0 :: tl =>
      rw [List.all_eq_true]
      constructor
      · intro h a ha b hb
        have ha2 : a = v0 := beq_iff_eq.mp (h a ha)
        have hb2 : b = v0 := beq_iff_eq.mp (h b hb)
        rw [ha2, hb2]
      · intro h x hx
        exact beq_iff_eq.mpr (h x hx v0 (List.mem_cons_self v0 tl))
  · rw [evaluateCondition_equality]
    by_cases h : a = b
    · subst h
      simp
    · have h1 : (b == a) = false := beq_eq_false_iff_ne.mpr (fun hba => h hba.symm)
      have h2 : (a == b) = false := beq_eq_false_iff_ne.mpr h
      simp [h1, h2]

/-! ### Completion transition (C9) -/

/-- The three steps of a place / remove / place-again run on a puzzle with
one domino and no conditions. -/
def c9Step1 : GameState × Bool := handleDominoMove bdE s0A "domino-0" (some "cell-0") 100

def c9Step2 : GameState × Bool := handleDominoMove bdE c9Step1.1 "domino-0" none 200

def c9Step3 : GameState × Bool := handleDominoMove bdE c9Step2.1 "domino-0" (some "cell-0") 300

/-- C9: the completed transition is not once-only. Placing the only
domino completes the attempt (trigger fires, completion time 100);
removing it makes `isComplete` false again while keeping the time;
placing it again fires the completion trigger a second time and
overwrites the recorded completion time with 300. -/
theorem c9_completion_retriggered_after_removal :
    c9Step1.2 = true ∧ c9Step1.1.completionTime = some 100 ∧
    c9Step2.2 = false ∧ c9Step2.1.isComplete = false ∧
    c9Step2.1.completionTime = some 100 ∧
    c9Step3.2 = true ∧ c9Step3.1.completionTime = some 300 := by
  decide

/-- C9 (amended): a state-update step taken from a state whose completion
flag is already true never fires the completion trigger and never changes
the recorded completion time; the flag itself, however, may revert to
false, after which a later false-to-true transition fires again and
overwrites the recorded time. -/
theorem c9_no_change_from_completed_state (bd : BoardData) (prev : GameState)
    (u : GameStateUpdate) (now : Int) (h : prev.isComplete = true) :
    (updateGameState bd prev u now).2 = false ∧
    (updateGameState bd prev u now).1.completionTime = prev.completionTime := by
  unfold updateGameState
  simp [h]

/-- A state already marked complete, with a recorded completion time. -/
def sDone : GameState := ⟨[], fun _ => none, true, [], 0, some 42⟩

theorem c9_no_change_from_completed_state_witness :
    sDone.isComplete = true ∧
    (updateGameState bdA sDone ⟨none, none⟩ 999).2 = false ∧
    (updateGameState bdA sDone ⟨none, none⟩ 999).1.completionTime = sDone.completionTime :=
  ⟨rfl, (c9_no_change_from_completed_state bdA sDone ⟨none, none⟩ 999 rfl).1,
    (c9_no_change_from_completed_state bdA sDone ⟨none, none⟩ 999 rfl).2⟩

/-! ### Unknown condition tags (C10) -/

/-- A region over the single cell 0. -/
def regionC : Region := ⟨"blue", ["cell-0"]⟩

/-- A board whose only condition carries the unknown tag `magic`. -/
def bdC : BoardData := ⟨[("r1", regionC)], [("r1", ⟨"magic", 0⟩)]⟩

/-- A state covering `cell-0` with value 2. -/
def sC : GameState :=
  ⟨[], fun k => if k = "cell-0" then some ⟨"domino-0", 2⟩ else none, false, [], 0, none⟩

/-- C10: a condition whose tag is outside the six known variants is never
satisfied (the evaluator is total and returns false), so a region with
such a condition and at least one covered value is reported violated. -/
theorem c10_unknown_condition_tag_violated (bd : BoardData) (s : GameState)
    (rid : String) (c : Condition) (region : Region)
    (hc : (rid, c) ∈ bd.conditions)
    (hu : c.ctype ∉ (["sum", "product", "difference", "equality",
      "greater_than", "less_than"] : List String))
    (hl : List.lookup rid bd.regions = some region)
    (hne : regionValues s region ≠ []) :
    (∀ t vs, evaluateCondition c.ctype t vs = false) ∧
    rid ∈ checkWinConditions bd s := by
  have heval : ∀ t vs, evaluateCondition c.ctype t vs = false := by
    intro t vs
    simp only [List.mem_cons, List.not_mem_nil, or_false] at hu
    push_neg at hu
    obtain ⟨h1, h2, h3, h4, h5, h6⟩ := hu
    unfold evaluateCondition
    rw [if_neg h1, if_neg h2, if_neg h3, if_neg h4, if_neg h5, if_neg h6]
  exact ⟨heval, (mem_checkWinConditions bd s rid).mpr
    ⟨c, region, hc, hl, hne, heval c.value (regionValues s region)⟩⟩

theorem c10_unknown_condition_tag_violated_witness :
    (("r1", (⟨"magic", 0⟩ : Condition)) ∈ bdC.conditions) ∧
    (("magic" : String) ∉ (["sum", "product", "difference", "equality",
      "greater_than", "less_than"] : List String)) ∧
    List.lookup "r1" bdC.regions = some regionC ∧
    regionValues sC regionC ≠ [] ∧
    evaluateCondition "magic" 0 [2] = false ∧
    "r1" ∈ checkWinConditions bdC sC := by
  refine ⟨by decide, by decide, by decide, by decide, ?_, ?_⟩
  · exact (c10_unknown_condition_tag_violated bdC sC "r1" ⟨"magic", 0⟩ regionC
      (by decide) (by decide) (by decide) (by decide)).1 0 [2]
  · exact (c10_unknown_condition_tag_violated bdC sC "r1" ⟨"magic", 0⟩ regionC
      (by decide) (by decide) (by decide) (by decide)).2
